import Mathlib

/-!
# Verification of the bounded inference gateway (`OllamaService`)

Shallow embedding of the `OllamaService` class: the bounded-concurrency
request queue (`queueRequest` / `executeRequest` / `processQueue`), the
availability probes (`isAvailable` / `isModelAvailable`), the network-error
mapping (`handleNetworkError`), the response validation and timing logic of
`classifyImage`, and the status reporter (`getStatus`).

The JavaScript runs on a single-threaded event loop, so the mutations of
`currentRequests` and `requestQueue` performed by one synchronous stretch of
code are atomic.  We model the gateway as a state machine: each state is a
`GState`, and the two externally triggered synchronous stretches — a call to
`queueRequest`, and the `finally` block of `executeRequest` (a unit of work
settling) — are the transitions.  Besides the two fields the source mutates
(`currentRequests`, `requestQueue`), `GState` carries two ghost history
fields used only to state properties: `running` (ids of queue items whose
`execute` has been started by `executeRequest` and has not yet settled) and
`resolvedIds` (ids of queue items whose promise has been settled — resolved
or rejected).  The ghost fields record events the source performs
(`executeRequest(item)` starts work; `resolve` / `reject` settles a
promise); the non-ghost fields are updated exactly as the source does.
-/

namespace OllamaService

/-- One entry of `requestQueue`: built by `queueRequest` as
`{ execute, resolve, reject, timestamp: Date.now() }`.  The closure and the
promise callbacks are represented by the item's ghost identifier `id`;
`timestamp` is the `Date.now()` value (milliseconds) at submission. -/
structure QueueItem where
  id : Nat
  timestamp : Nat
  deriving DecidableEq, Repr

/-- The configuration read in the constructor:
`maxConcurrentRequests = parseInt(env) || 3`, `maxQueueSize = parseInt(env) || 10`. -/
structure Config where
  maxConcurrentRequests : Nat
  maxQueueSize : Nat
  deriving DecidableEq, Repr

/-- The defaults from the constructor (`|| 3`, `|| 10`). -/
def defaultConfig : Config := ⟨3, 10⟩

/-- The 30-second queue timeout hard-coded in `processQueue`
(`if (waitTime > 30000)`). -/
def queueTimeoutMs : Nat := 30000

/-- Rejection message used by `queueRequest` when the queue is full. -/
def queueFullMessage : String := "Request queue is full. Please try again later."

/-- Rejection message used by `processQueue` when a queued item expires. -/
def queueTimeoutMessage : String := "Request timed out in queue"

/-- Gateway state.  `currentRequests` and `requestQueue` are the two fields
the source mutates; `running` and `resolvedIds` are ghost history fields
(see the module docstring). -/
structure GState where
  currentRequests : Nat
  requestQueue : List QueueItem
  running : List Nat
  resolvedIds : List Nat
  deriving DecidableEq, Repr

/-- The constructor's initial state: `currentRequests = 0`, `requestQueue = []`. -/
def GState.init : GState := ⟨0, [], [], []⟩

/-- Ids of the items currently waiting in `requestQueue`. -/
def queueIds (s : GState) : List Nat := s.requestQueue.map QueueItem.id

/-- All ids the gateway is currently accountable for: running, queued, or
already settled. -/
def allIds (s : GState) : List Nat := s.running ++ queueIds s ++ s.resolvedIds

/-- The synchronous prefix of `executeRequest(queueItem)`:
`this.currentRequests++`, then `queueItem.execute()` begins (ghost: the
item's id joins `running`). -/
def executeStart (s : GState) (item : QueueItem) : GState :=
  { s with
    currentRequests := s.currentRequests + 1
    running := item.id :: s.running }

/-- What `queueRequest` does with a submission, as seen by the caller. -/
inductive SubmitOutcome where
  | started (id : Nat)
  | enqueued (id : Nat)
  | rejectedQueueFull (id : Nat) (msg : String)
  deriving DecidableEq, Repr

/-- `queueRequest(requestFn)`: build the queue item with the current
timestamp; if `currentRequests < maxConcurrentRequests` execute immediately;
else if `requestQueue.length >= maxQueueSize` reject with the queue-full
error (returning before touching any state); else push onto `requestQueue`. -/
def queueRequest (cfg : Config) (now id : Nat) (s : GState) : GState × SubmitOutcome :=
  let queueItem : QueueItem := ⟨id, now⟩
  if s.currentRequests < cfg.maxConcurrentRequests then
    (executeStart s queueItem, .started id)
  else if s.requestQueue.length ≥ cfg.maxQueueSize then
    (s, .rejectedQueueFull id queueFullMessage)
  else
    ({ s with requestQueue := s.requestQueue ++ [queueItem] }, .enqueued id)

/-- One observable effect of a run of `processQueue`. -/
inductive DrainEvent where
  | timedOut (id : Nat) (msg : String)
  | admitted (id : Nat)
  deriving DecidableEq, Repr

/-- The loop body of `processQueue`, with the state fields passed
explicitly so the recursion is structural on the queue.  Mirrors the source:
while the queue is nonempty and `currentRequests < maxConcurrentRequests`,
shift the head; if `now - timestamp > 30000` reject it with the
queue-timeout error and recurse (`this.processQueue()`), else start it via
`executeRequest` and stop. -/
def drainLoop (cfg : Config) (now cur : Nat) (queue : List QueueItem)
    (running resolved : List Nat) : GState × List DrainEvent :=
  match queue with
  | [] => (⟨cur, [], running, resolved⟩, [])
  | item :: rest =>
    if cur < cfg.maxConcurrentRequests then
      if now - item.timestamp > queueTimeoutMs then
        let r := drainLoop cfg now cur rest running (item.id :: resolved)
        (r.1, .timedOut item.id queueTimeoutMessage :: r.2)
      else
        (⟨cur + 1, rest, item.id :: running, resolved⟩, [.admitted item.id])
    else
      (⟨cur, item :: rest, running, resolved⟩, [])

/-- `processQueue()` on a gateway state. -/
def processQueue (cfg : Config) (now : Nat) (s : GState) : GState × List DrainEvent :=
  drainLoop cfg now s.currentRequests s.requestQueue s.running s.resolvedIds

/-- The `finally` block of `executeRequest`, run when the unit of work with
ghost id `id` settles (its promise was resolved on success or rejected on
failure just before): `this.currentRequests--; this.processQueue()`. -/
def completeRequest (cfg : Config) (now id : Nat) (s : GState) : GState × List DrainEvent :=
  processQueue cfg now
    { s with
      currentRequests := s.currentRequests - 1
      running := s.running.erase id
      resolvedIds := id :: s.resolvedIds }

/-- The transitions of the gateway: a submission (with a ghost-fresh id),
or the settling of a running unit of work. -/
inductive Step (cfg : Config) : GState → GState → Prop where
  | submit (now id : Nat) (s : GState) (hfresh : id ∉ allIds s) :
      Step cfg s (queueRequest cfg now id s).1
  | complete (now id : Nat) (s : GState) (hrun : id ∈ s.running) :
      Step cfg s (completeRequest cfg now id s).1

/-- States reachable from the constructor's initial state. -/
inductive Reachable (cfg : Config) : GState → Prop where
  | init : Reachable cfg GState.init
  | step {s s' : GState} : Reachable cfg s → Step cfg s s' → Reachable cfg s'

/-! ## Availability probes (`isAvailable`, `isModelAvailable`) -/

/-- Outcome of the `GET /api/tags` probe as the `catch`-wrapped code sees
it: either the axios promise resolved, with an HTTP status and an optional
`data.models` list (each element abstracted to its `name` string), or it
rejected (network error, timeout, non-2xx — anything thrown). -/
inductive TagsOutcome where
  | resolved (status : Nat) (models : Option (List String))
  | failed (msg : String)
  deriving DecidableEq, Repr

/-- JavaScript `hay.includes(needle)`: substring containment. -/
def strIncludes (hay needle : String) : Bool := decide (needle.toList <:+: hay.toList)

/-- `isAvailable()`: `return response.status === 200`, and `false` for any
thrown error (the `catch` branch). -/
def isAvailable : TagsOutcome → Bool
  | .resolved status _ => status == 200
  | .failed _ => false

/-- `isModelAvailable()`: if `response.status === 200 && response.data.models`,
return `models.some(m => m.name.includes(this.model))`; otherwise `false`,
also for any thrown error. -/
def isModelAvailable (model : String) : TagsOutcome → Bool
  | .resolved status (some models) =>
      if status == 200 then models.any (fun name => strIncludes name model) else false
  | .resolved _ none => false
  | .failed _ => false

/-! ## Network-error mapping (`handleNetworkError`) -/

/-- The shape of an error object reaching `handleNetworkError`: the
optional Node error `code`, the optional axios `response.status` with the
stringified `response.data`, and the raw `message`. -/
structure TransportError where
  code : Option String
  respStatus : Option Nat
  respData : String
  message : String
  deriving DecidableEq, Repr

def msgTimedOut : String :=
  "Request to Ollama service timed out. The image might be too large or complex, or the service may be overloaded."

def msgConnRefused : String :=
  "Cannot connect to Ollama service. Please ensure Ollama is running and accessible at the configured URL."

def msgUrlNotFound : String :=
  "Ollama service URL not found. Please check your OLLAMA_API_URL configuration."

def msgNetUnreachable : String :=
  "Network unreachable. Please check your network connection and Ollama service configuration."

def msgEndpointNotFound : String :=
  "Ollama API endpoint not found. Please check your Ollama installation and version."

def msgServerError : String :=
  "Ollama service is experiencing internal issues. Please try again later."

/-- The six condition-specific messages of `handleNetworkError`
(timed-out, connect-refused, DNS-not-found, network-unreachable,
endpoint-not-found, server-error). -/
def fixedTransportMessages : List String :=
  [msgTimedOut, msgConnRefused, msgUrlNotFound, msgNetUnreachable,
   msgEndpointNotFound, msgServerError]

/-- The generic fallback of `handleNetworkError`:
`` `Ollama service error: ${error.message}` ``. -/
def genericWrap (message : String) : String := "Ollama service error: " ++ message

/-- `handleNetworkError(error)`, returning the message of the error it
throws.  Branch order as in the source: codes first, then
`response?.status === 404`, `=== 400`, `>= 500`, then the generic fallback
embedding `error.message`. -/
def handleNetworkError (e : TransportError) : String :=
  if e.code = some "ETIMEDOUT" ∨ e.code = some "TIMEOUT" then msgTimedOut
  else if e.code = some "ECONNREFUSED" then msgConnRefused
  else if e.code = some "ENOTFOUND" then msgUrlNotFound
  else if e.code = some "ENETUNREACH" then msgNetUnreachable
  else if e.respStatus = some 404 then msgEndpointNotFound
  else if e.respStatus = some 400 then "Ollama API error: " ++ e.respData
  else if (e.respStatus.map (fun st => decide (500 ≤ st))).getD false then msgServerError
  else genericWrap e.message

/-! ## Response validation and result building (`classifyImage`) -/

/-- State of the `response` field of the response body:
absent (`!hasOwnProperty`), present but `null`/`undefined`, or a string
value. -/
inductive FieldState where
  | absent
  | nullVal
  | strVal (v : String)
  deriving DecidableEq, Repr

/-- The resolved HTTP response of `POST /api/generate` as the validation
code inspects it: `hasData` is the truthiness of `response.data`,
`dataStr` stands for `JSON.stringify(response.data)`, `total_duration` is
the optional nanosecond duration of the body. -/
structure GenerateResponse where
  status : Nat
  hasData : Bool
  responseField : FieldState
  total_duration : Option Nat
  dataStr : String
  deriving DecidableEq, Repr

/-- The four validation failures of `classifyImage`. -/
inductive ValidationError where
  | emptyResponse
  | badStatus (status : Nat) (dataStr : String)
  | missingField
  | nullField
  deriving DecidableEq, Repr

/-- The message of the `Error` thrown for each validation failure. -/
def validationMessage : ValidationError → String
  | .emptyResponse => "Empty response from Ollama API"
  | .badStatus status dataStr =>
      "Ollama API returned status " ++ toString status ++ ": " ++ dataStr
  | .missingField => "Ollama API response is missing the \"response\" field"
  | .nullField => "Ollama API response field is null or undefined"

/-- A validation failure thrown inside `classifyImage`'s `try` block is a
plain `Error`: no `code`, no `response` — `handleNetworkError` sees this. -/
def validationToTransport (e : ValidationError) : TransportError :=
  ⟨none, none, "", validationMessage e⟩

/-- JavaScript `Math.round(num / den)` for nonnegative operands:
half-up rounding of the rational `num / den`. -/
def jsRound (num den : Nat) : Nat := (2 * num + den) / (2 * den)

/-- JavaScript `String(x).trim()`: strip leading and trailing whitespace. -/
def jsTrim (s : String) : String :=
  ⟨List.dropWhile Char.isWhitespace
    (List.reverse (List.dropWhile Char.isWhitespace (List.reverse s.toList)))⟩

/-- The standardized success object built by `classifyImage`. -/
structure ClassifyResult where
  success : Bool
  classification : String
  model : String
  prompt : String
  processingTime : Nat
  deriving DecidableEq, Repr

/-- Outcome of the single `POST /api/generate` call at transport level:
rejected with an error object, or resolved with a response. -/
inductive CallOutcome where
  | transport (e : TransportError)
  | response (r : GenerateResponse)
  deriving DecidableEq, Repr

/-- The part of `classifyImage` from the POST outcome on: a transport
rejection goes to `handleNetworkError`; a resolved response is validated
(`!response.data`, `status !== 200`, missing `response` field, null
`response` field — each `throw` is caught by the surrounding `catch` and
routed through `handleNetworkError` as well); on success the result object
is built, with `processingTime` from `response.data.total_duration ?
Math.round(total_duration / 1000000) : processingTime` — note the
truthiness test, under which a present-but-zero `total_duration` falls back
to the locally measured `localElapsed`. -/
def classifyImage (model prompt : String) (localElapsed : Nat) :
    CallOutcome → Except String ClassifyResult
  | .transport e => .error (handleNetworkError e)
  | .response r =>
    if r.hasData = false then
      .error (handleNetworkError (validationToTransport .emptyResponse))
    else if r.status ≠ 200 then
      .error (handleNetworkError (validationToTransport (.badStatus r.status r.dataStr)))
    else
      match r.responseField with
      | .absent => .error (handleNetworkError (validationToTransport .missingField))
      | .nullVal => .error (handleNetworkError (validationToTransport .nullField))
      | .strVal v =>
          .ok { success := true
                classification := jsTrim v
                model := model
                prompt := prompt
                processingTime :=
                  match r.total_duration with
                  | some d => if d ≠ 0 then jsRound d 1000000 else localElapsed
                  | none => localElapsed }

/-! ## Status reporter (`getStatus`) -/

/-- The fields of the object returned by `getStatus` that the claims speak
about.  `queueUtilization` is
`Math.round((currentRequests / maxConcurrentRequests) * 100)`. -/
structure ServiceStatus where
  serviceAvailable : Bool
  modelAvailable : Bool
  currentRequests : Nat
  queuedRequests : Nat
  queueUtilization : Nat
  deriving DecidableEq, Repr

/-- `getStatus()`: runs the two probes (each total — they catch
internally, see `isAvailable` / `isModelAvailable`, so the surrounding
`try`/`catch` never fires) and assembles the snapshot. -/
def getStatus (cfg : Config) (model : String) (s : GState)
    (tagsProbe modelProbe : TagsOutcome) : ServiceStatus :=
  { serviceAvailable := isAvailable tagsProbe
    modelAvailable := isModelAvailable model modelProbe
    currentRequests := s.currentRequests
    queuedRequests := s.requestQueue.length
    queueUtilization := jsRound (100 * s.currentRequests) cfg.maxConcurrentRequests }

/-! ## Helper lemmas -/

theorem toList_append (a b : String) : (a ++ b).toList = a.toList ++ b.toList := by
  cases a; cases b; rfl

/-- A validation failure thrown inside `classifyImage` reaches
`handleNetworkError` as a plain `Error` (no `code`, no `response`) and thus
takes the generic fallback branch. -/
theorem handleNetworkError_validation (e : ValidationError) :
    handleNetworkError (validationToTransport e) = genericWrap (validationMessage e) := by
  simp [handleNetworkError, validationToTransport]

/-- No string produced by the generic fallback equals one of the six
condition-specific transport messages: the fallback's prefix does not open
any of them. -/
theorem genericWrap_ne_fixed (x : String) :
    ∀ m ∈ fixedTransportMessages, genericWrap x ≠ m := by
  intro m hm h
  have hpre : ("Ollama service error: ").toList <+: m.toList := by
    refine ⟨x.toList, ?_⟩
    rw [← h, genericWrap, toList_append]
  fin_cases hm <;> revert hpre <;> decide

/-! ## C1: admission control in `queueRequest` -/

/-- C1: a submission with `currentRequests < maxConcurrentRequests` is
admitted immediately (counter incremented, work started); otherwise with a
non-full queue it is appended with the current timestamp (and its promise
is untouched — the state's `resolvedIds` is unchanged); otherwise it is
rejected with the queue-full message, the state left untouched and the
work never started. -/
theorem queueRequest_admission_cases (cfg : Config) (now id : Nat) (s : GState) :
    (s.currentRequests < cfg.maxConcurrentRequests →
      queueRequest cfg now id s =
        ({ s with currentRequests := s.currentRequests + 1, running := id :: s.running },
          SubmitOutcome.started id)) ∧
    (¬ s.currentRequests < cfg.maxConcurrentRequests →
      s.requestQueue.length < cfg.maxQueueSize →
      queueRequest cfg now id s =
        ({ s with requestQueue := s.requestQueue ++ [⟨id, now⟩] }, SubmitOutcome.enqueued id)) ∧
    (¬ s.currentRequests < cfg.maxConcurrentRequests →
      ¬ s.requestQueue.length < cfg.maxQueueSize →
      queueRequest cfg now id s = (s, SubmitOutcome.rejectedQueueFull id queueFullMessage)) := by
  refine ⟨fun h1 => ?_, fun h1 h2 => ?_, fun h1 h2 => ?_⟩
  · simp [queueRequest, executeStart, h1]
  · have h3 : ¬ s.requestQueue.length ≥ cfg.maxQueueSize := by omega
    simp [queueRequest, h1, h3]
  · have h3 : s.requestQueue.length ≥ cfg.maxQueueSize := by omega
    simp [queueRequest, h1, h3]

theorem queueRequest_admission_cases_witness :
    queueRequest defaultConfig 0 1 GState.init = (⟨1, [], [1], []⟩, .started 1) ∧
    queueRequest defaultConfig 5 9 ⟨3, [], [6, 7, 8], []⟩ =
      (⟨3, [⟨9, 5⟩], [6, 7, 8], []⟩, .enqueued 9) ∧
    queueRequest ⟨1, 1⟩ 5 9 ⟨1, [⟨7, 0⟩], [4], []⟩ =
      (⟨1, [⟨7, 0⟩], [4], []⟩, .rejectedQueueFull 9 queueFullMessage) :=
  ⟨(queueRequest_admission_cases defaultConfig 0 1 GState.init).1 (by decide),
   (queueRequest_admission_cases defaultConfig 5 9 ⟨3, [], [6, 7, 8], []⟩).2.1
     (by decide) (by decide),
   (queueRequest_admission_cases ⟨1, 1⟩ 5 9 ⟨1, [⟨7, 0⟩], [4], []⟩).2.2
     (by decide) (by decide)⟩

/-! ## C10: a queue-full rejection is atomic -/

/-- C10: when concurrency capacity is taken and the queue is full,
`queueRequest` returns the very same state: the counter, the queue, the
ghost `running` set (so the work is never invoked) and the ghost
`resolvedIds` are all unchanged. -/
theorem queueFull_rejection_state_unchanged (cfg : Config) (now id : Nat) (s : GState)
    (hcap : cfg.maxConcurrentRequests ≤ s.currentRequests)
    (hfull : cfg.maxQueueSize ≤ s.requestQueue.length) :
    queueRequest cfg now id s = (s, SubmitOutcome.rejectedQueueFull id queueFullMessage) := by
  have h1 : ¬ s.currentRequests < cfg.maxConcurrentRequests := by omega
  have h2 : ¬ s.requestQueue.length < cfg.maxQueueSize := by omega
  exact (queueRequest_admission_cases cfg now id s).2.2 h1 h2

theorem queueFull_rejection_state_unchanged_witness :
    queueRequest ⟨1, 1⟩ 99 42 ⟨1, [⟨7, 0⟩], [4], [5]⟩ =
      (⟨1, [⟨7, 0⟩], [4], [5]⟩, SubmitOutcome.rejectedQueueFull 42 queueFullMessage) :=
  queueFull_rejection_state_unchanged ⟨1, 1⟩ 99 42 ⟨1, [⟨7, 0⟩], [4], [5]⟩
    (by decide) (by decide)

/-! ## C5: the status reporter -/

/-- C5: `getStatus` is a total function of the gateway state and the two
probe outcomes (it cannot throw — in the source the probes catch
internally and return booleans, so the reporter's own `catch` is never
reached); it reports the in-flight count, the queued count, and
`Math.round(currentRequests / maxConcurrentRequests * 100)`, which is `0`
whenever `currentRequests = 0`. -/
theorem getStatus_reports_counts_and_utilization (cfg : Config) (model : String)
    (s : GState) (t₁ t₂ : TagsOutcome) (hmax : 0 < cfg.maxConcurrentRequests) :
    (getStatus cfg model s t₁ t₂).currentRequests = s.currentRequests ∧
    (getStatus cfg model s t₁ t₂).queuedRequests = s.requestQueue.length ∧
    (getStatus cfg model s t₁ t₂).queueUtilization =
      jsRound (100 * s.currentRequests) cfg.maxConcurrentRequests ∧
    (s.currentRequests = 0 → (getStatus cfg model s t₁ t₂).queueUtilization = 0) := by
  refine ⟨rfl, rfl, rfl, fun h => ?_⟩
  simp only [getStatus, jsRound, h]
  exact Nat.div_eq_of_lt (by omega)

theorem getStatus_witness :
    (getStatus defaultConfig "moondream" GState.init (.failed "probe down")
        (.failed "probe down")).queueUtilization = 0 ∧
    (getStatus defaultConfig "moondream" GState.init (.failed "probe down")
        (.failed "probe down")).currentRequests = 0 :=
  ⟨(getStatus_reports_counts_and_utilization defaultConfig "moondream" GState.init
      (.failed "probe down") (.failed "probe down") (by decide)).2.2.2 rfl,
   (getStatus_reports_counts_and_utilization defaultConfig "moondream" GState.init
      (.failed "probe down") (.failed "probe down") (by decide)).1⟩

/-! ## C6: the availability probes -/

/-- C6: both probes are total boolean functions of the probe outcome (any
thrown error is caught and yields `false`); `isAvailable` is `true`
exactly when the `/api/tags` probe resolved with status 200, and
`isModelAvailable` is `true` exactly when it resolved with status 200, a
`models` list was present, and some listed name contains the configured
model name as a substring. -/
theorem probes_never_throw_spec (model : String) (o : TagsOutcome) :
    (isAvailable o = true ↔ ∃ ms, o = .resolved 200 ms) ∧
    (isModelAvailable model o = true ↔
      ∃ names, o = .resolved 200 (some names) ∧
        ∃ n ∈ names, strIncludes n model = true) := by
  constructor
  · cases o with
    | resolved st ms => simp [isAvailable]
    | failed msg => simp [isAvailable]
  · cases o with
    | resolved st ms =>
      cases ms with
      | none => simp [isModelAvailable]
      | some names =>
        by_cases hst : st = 200
        · subst hst
          simp [isModelAvailable, List.any_eq_true]
        · simp [isModelAvailable, hst, Ne.symm hst]
    | failed msg => simp [isModelAvailable]

theorem probes_never_throw_spec_witness :
    isModelAvailable "moondream" (.resolved 200 (some ["moondream:latest"])) = true :=
  (probes_never_throw_spec "moondream" (.resolved 200 (some ["moondream:latest"]))).2.mpr
    ⟨["moondream:latest"], rfl, "moondream:latest", by decide, by decide⟩

/-! ## C7: malformed responses are rejected, never a silent success -/

/-- C7: whenever the POST resolved but the response has no data, a non-200
status, or a missing/null `response` field, `classifyImage` rejects with
one of the four validation errors — routed (as a plain `Error` without a
transport code) through the generic branch of `handleNetworkError` — whose
message is distinct from every condition-specific transport message; it
never resolves successfully. -/
theorem malformed_response_rejected (model prompt : String) (localElapsed : Nat)
    (r : GenerateResponse)
    (hbad : r.hasData = false ∨ r.status ≠ 200 ∨
      r.responseField = .absent ∨ r.responseField = .nullVal) :
    ∃ e : ValidationError,
      classifyImage model prompt localElapsed (.response r) =
        .error (genericWrap (validationMessage e)) ∧
      (∀ m ∈ fixedTransportMessages, genericWrap (validationMessage e) ≠ m) ∧
      (∀ res : ClassifyResult,
        classifyImage model prompt localElapsed (.response r) ≠ .ok res) := by
  by_cases hd : r.hasData = false
  · refine ⟨.emptyResponse, ?_, genericWrap_ne_fixed _, ?_⟩
    · simp [classifyImage, hd, handleNetworkError_validation]
    · intro res
      simp [classifyImage, hd, handleNetworkError_validation]
  · by_cases hs : r.status = 200
    · cases hf : r.responseField with
      | absent =>
        refine ⟨.missingField, ?_, genericWrap_ne_fixed _, ?_⟩
        · simp [classifyImage, hd, hs, hf, handleNetworkError_validation]
        · intro res
          simp [classifyImage, hd, hs, hf, handleNetworkError_validation]
      | nullVal =>
        refine ⟨.nullField, ?_, genericWrap_ne_fixed _, ?_⟩
        · simp [classifyImage, hd, hs, hf, handleNetworkError_validation]
        · intro res
          simp [classifyImage, hd, hs, hf, handleNetworkError_validation]
      | strVal v =>
        exfalso
        rcases hbad with h | h | h | h <;> simp_all
    · refine ⟨.badStatus r.status r.dataStr, ?_, genericWrap_ne_fixed _, ?_⟩
      · simp [classifyImage, hd, hs, handleNetworkError_validation]
      · intro res
        simp [classifyImage, hd, hs, handleNetworkError_validation]

theorem malformed_response_rejected_witness :
    ∃ e : ValidationError,
      classifyImage "moondream" "What object is in this image?" 7
          (.response ⟨200, true, .absent, none, ""⟩) =
        .error (genericWrap (validationMessage e)) ∧
      (∀ m ∈ fixedTransportMessages, genericWrap (validationMessage e) ≠ m) ∧
      (∀ res : ClassifyResult,
        classifyImage "moondream" "What object is in this image?" 7
            (.response ⟨200, true, .absent, none, ""⟩) ≠ .ok res) :=
  malformed_response_rejected "moondream" "What object is in this image?" 7
    ⟨200, true, .absent, none, ""⟩ (Or.inr (Or.inr (Or.inl rfl)))

/-! ## C8: the transport-error message taxonomy -/

/-- The transport-error codes `handleNetworkError` recognizes. -/
def hasRecognizedCode (e : TransportError) : Prop :=
  e.code = some "ETIMEDOUT" ∨ e.code = some "TIMEOUT" ∨ e.code = some "ECONNREFUSED" ∨
    e.code = some "ENOTFOUND" ∨ e.code = some "ENETUNREACH"

instance (e : TransportError) : Decidable (hasRecognizedCode e) := by
  unfold hasRecognizedCode; infer_instance

/-- C8 counterexample: a transport failure with the unrecognized code
`ECONNRESET` falls to the generic fallback, whose message is not one of
the six condition-specific messages and embeds the raw transport
exception text (`socket hang up`) as a substring. -/
theorem transport_raw_text_leaked :
    handleNetworkError ⟨some "ECONNRESET", none, "", "socket hang up"⟩ =
      genericWrap "socket hang up" ∧
    handleNetworkError ⟨some "ECONNRESET", none, "", "socket hang up"⟩
      ∉ fixedTransportMessages ∧
    ("socket hang up").toList <:+:
      (handleNetworkError ⟨some "ECONNRESET", none, "", "socket hang up"⟩).toList :=
  ⟨rfl, by decide, by decide⟩

/-- C8 (amended): each recognized transport condition gets its own fixed
condition-specific message — ETIMEDOUT/TIMEOUT the timed-out message,
ECONNREFUSED the connect-refused message, ENOTFOUND the DNS-not-found
message, ENETUNREACH the network-unreachable message, and, absent a
recognized code, HTTP status 404 the endpoint-not-found message and
status ≥ 500 the server-error message; a failure with no recognized code
and no HTTP response falls to a generic message that embeds the raw
transport exception text. -/
theorem handleNetworkError_taxonomy (e : TransportError) :
    ((e.code = some "ETIMEDOUT" ∨ e.code = some "TIMEOUT") →
      handleNetworkError e = msgTimedOut) ∧
    (e.code = some "ECONNREFUSED" → handleNetworkError e = msgConnRefused) ∧
    (e.code = some "ENOTFOUND" → handleNetworkError e = msgUrlNotFound) ∧
    (e.code = some "ENETUNREACH" → handleNetworkError e = msgNetUnreachable) ∧
    (¬ hasRecognizedCode e → e.respStatus = some 404 →
      handleNetworkError e = msgEndpointNotFound) ∧
    (¬ hasRecognizedCode e → ∀ st, e.respStatus = some st → 500 ≤ st →
      handleNetworkError e = msgServerError) ∧
    (¬ hasRecognizedCode e → e.respStatus = none →
      handleNetworkError e = genericWrap e.message) := by
  obtain ⟨c, st, d, m⟩ := e
  refine ⟨fun hc => ?_, fun hc => ?_, fun hc => ?_, fun hc => ?_,
    fun hc h404 => ?_, fun hc st' hst' h500 => ?_, fun hc hnone => ?_⟩
  · rcases hc with h | h <;> simp only at h <;> subst h <;> simp [handleNetworkError]
  · simp only at hc
    subst hc
    simp [handleNetworkError]
  · simp only at hc
    subst hc
    simp [handleNetworkError]
  · simp only at hc
    subst hc
    simp [handleNetworkError]
  · simp only [hasRecognizedCode, not_or] at hc
    obtain ⟨h1, h2, h3, h4, h5⟩ := hc
    simp_all [handleNetworkError]
  · simp only [hasRecognizedCode, not_or] at hc
    obtain ⟨h1, h2, h3, h4, h5⟩ := hc
    simp only at hst'
    subst hst'
    have h404 : ¬ (some st' = some (404 : Nat)) := by simp; omega
    have h400 : ¬ (some st' = some (400 : Nat)) := by simp; omega
    simp_all [handleNetworkError]
  · simp only [hasRecognizedCode, not_or] at hc
    obtain ⟨h1, h2, h3, h4, h5⟩ := hc
    simp_all [handleNetworkError, genericWrap]

theorem handleNetworkError_taxonomy_witness :
    handleNetworkError ⟨some "ETIMEDOUT", none, "", "raw timeout"⟩ = msgTimedOut ∧
    handleNetworkError ⟨some "ECONNREFUSED", none, "", "raw connect error"⟩ =
      msgConnRefused ∧
    handleNetworkError ⟨some "ENOTFOUND", none, "", "raw dns error"⟩ = msgUrlNotFound ∧
    handleNetworkError ⟨some "ENETUNREACH", none, "", "raw net error"⟩ =
      msgNetUnreachable ∧
    handleNetworkError ⟨none, some 404, "", "raw http error"⟩ = msgEndpointNotFound ∧
    handleNetworkError ⟨none, some 503, "", "raw http error"⟩ = msgServerError ∧
    handleNetworkError ⟨none, none, "", "raw fallback error"⟩ =
      genericWrap "raw fallback error" :=
  ⟨(handleNetworkError_taxonomy ⟨some "ETIMEDOUT", none, "", "raw timeout"⟩).1
      (Or.inl rfl),
   (handleNetworkError_taxonomy
      ⟨some "ECONNREFUSED", none, "", "raw connect error"⟩).2.1 rfl,
   (handleNetworkError_taxonomy ⟨some "ENOTFOUND", none, "", "raw dns error"⟩).2.2.1 rfl,
   (handleNetworkError_taxonomy
      ⟨some "ENETUNREACH", none, "", "raw net error"⟩).2.2.2.1 rfl,
   (handleNetworkError_taxonomy ⟨none, some 404, "", "raw http error"⟩).2.2.2.2.1
      (by decide) rfl,
   (handleNetworkError_taxonomy ⟨none, some 503, "", "raw http error"⟩).2.2.2.2.2.1
      (by decide) 503 rfl (by omega),
   (handleNetworkError_taxonomy ⟨none, none, "", "raw fallback error"⟩).2.2.2.2.2.2
      (by decide) rfl⟩

/-! ## C9: processing-time reporting -/

/-- C9 counterexample: a success response that includes
`total_duration = 0` reports the locally measured elapsed time (5 ms
here), not `Math.round(0 / 1e6) = 0` — the source tests `total_duration`
for truthiness, so a present-but-zero value falls back to local timing. -/
theorem processingTime_zero_duration_counterexample :
    classifyImage "m" "p" 5 (.response ⟨200, true, .strVal "cat", some 0, ""⟩) =
      .ok ⟨true, "cat", "m", "p", 5⟩ ∧
    jsRound 0 1000000 = 0 ∧ (5 : Nat) ≠ 0 :=
  ⟨rfl, rfl, by decide⟩

/-- C9 (amended): on a successful classification, `processingTime` equals
`Math.round(total_duration / 1e6)` whenever the response includes a
nonzero `total_duration`, and equals the locally measured elapsed time
when `total_duration` is absent or zero. -/
theorem processingTime_prefers_service_duration (model prompt : String)
    (localElapsed : Nat) (r : GenerateResponse) (v : String)
    (h1 : r.hasData = true) (h2 : r.status = 200) (h3 : r.responseField = .strVal v) :
    ∃ res : ClassifyResult,
      classifyImage model prompt localElapsed (.response r) = .ok res ∧
      (∀ dur, r.total_duration = some dur → dur ≠ 0 →
        res.processingTime = jsRound dur 1000000) ∧
      ((r.total_duration = none ∨ r.total_duration = some 0) →
        res.processingTime = localElapsed) := by
  refine ⟨{ success := true, classification := jsTrim v, model := model, prompt := prompt,
            processingTime := match r.total_duration with
              | some d => if d ≠ 0 then jsRound d 1000000 else localElapsed
              | none => localElapsed }, ?_, ?_, ?_⟩
  · simp [classifyImage, h1, h2, h3]
  · intro dur hdur hne
    simp [hdur, hne]
  · rintro (hdur | hdur) <;> simp [hdur]

theorem processingTime_prefers_service_duration_witness :
    ∃ res : ClassifyResult,
      classifyImage "m" "p" 5 (.response ⟨200, true, .strVal "cat", some 1500000, ""⟩) =
        .ok res ∧
      (∀ dur, (some 1500000 : Option Nat) = some dur → dur ≠ 0 →
        res.processingTime = jsRound dur 1000000) ∧
      (((some 1500000 : Option Nat) = none ∨ (some 1500000 : Option Nat) = some 0) →
        res.processingTime = 5) :=
  processingTime_prefers_service_duration "m" "p" 5
    ⟨200, true, .strVal "cat", some 1500000, ""⟩ "cat" rfl rfl rfl

/-! ## C2: completion triggers a strict-FIFO, lazily-expiring drain -/

/-- The timeout test `processQueue` applies to the popped head:
`Date.now() - timestamp > 30000`. -/
def expiredInQueue (now : Nat) (item : QueueItem) : Bool :=
  decide (now - item.timestamp > queueTimeoutMs)

/-- Characterization of the drain loop when a slot is available: the
longest expired prefix of the queue is popped and rejected (in FIFO
order, none of it executed, the counter untouched), and then the first
non-expired item — if any — is admitted: counter incremented, execution
started, the rest of the queue untouched. -/
theorem drainLoop_spec (cfg : Config) (now cur : Nat)
    (hcur : cur < cfg.maxConcurrentRequests) :
    ∀ (queue : List QueueItem) (running resolved : List Nat),
      drainLoop cfg now cur queue running resolved =
        match queue.dropWhile (expiredInQueue now) with
        | [] =>
            (⟨cur, [], running,
              ((queue.takeWhile (expiredInQueue now)).map QueueItem.id).reverse ++ resolved⟩,
             (queue.takeWhile (expiredInQueue now)).map
               (fun it => DrainEvent.timedOut it.id queueTimeoutMessage))
        | next :: rest =>
            (⟨cur + 1, rest, next.id :: running,
              ((queue.takeWhile (expiredInQueue now)).map QueueItem.id).reverse ++ resolved⟩,
             ((queue.takeWhile (expiredInQueue now)).map
               (fun it => DrainEvent.timedOut it.id queueTimeoutMessage))
               ++ [DrainEvent.admitted next.id]) := by
  intro queue
  induction queue with
  | nil =>
    intro running resolved
    simp [drainLoop]
  | cons item rest ih =>
    intro running resolved
    by_cases hexp : now - item.timestamp > queueTimeoutMs
    · have hb : expiredInQueue now item = true := by
        simp [expiredInQueue, hexp]
      rw [drainLoop, if_pos hcur, if_pos hexp, ih running (item.id :: resolved)]
      cases hdrop : rest.dropWhile (expiredInQueue now) with
      | nil =>
        simp [List.dropWhile_cons, List.takeWhile_cons, hb, hdrop, List.append_assoc]
      | cons next rest' =>
        simp [List.dropWhile_cons, List.takeWhile_cons, hb, hdrop, List.append_assoc]
    · have hb : expiredInQueue now item = false := by
        simp [expiredInQueue, hexp]
      rw [drainLoop, if_pos hcur, if_neg hexp]
      simp [List.dropWhile_cons, List.takeWhile_cons, hb]

/-- C2: when a running unit of work settles, `currentRequests` is
decremented and its id settled; the drain then pops the queue in strict
FIFO order: every expired head is rejected with the queue-timeout error
(never started, the counter untouched) and the drain repeats, and the
first non-expired item — the oldest non-expired one — is admitted:
counter re-incremented and its execution started.  The drain stops when
the queue empties (first match arm) or the freed slot is taken (second
arm). -/
theorem completion_drains_fifo (cfg : Config) (now id : Nat) (s : GState)
    (hpos : 0 < s.currentRequests)
    (hle : s.currentRequests ≤ cfg.maxConcurrentRequests) :
    completeRequest cfg now id s =
      match s.requestQueue.dropWhile (expiredInQueue now) with
      | [] =>
          (⟨s.currentRequests - 1, [], s.running.erase id,
            ((s.requestQueue.takeWhile (expiredInQueue now)).map QueueItem.id).reverse
              ++ id :: s.resolvedIds⟩,
           (s.requestQueue.takeWhile (expiredInQueue now)).map
             (fun it => DrainEvent.timedOut it.id queueTimeoutMessage))
      | next :: rest =>
          (⟨s.currentRequests - 1 + 1, rest, next.id :: s.running.erase id,
            ((s.requestQueue.takeWhile (expiredInQueue now)).map QueueItem.id).reverse
              ++ id :: s.resolvedIds⟩,
           ((s.requestQueue.takeWhile (expiredInQueue now)).map
             (fun it => DrainEvent.timedOut it.id queueTimeoutMessage))
             ++ [DrainEvent.admitted next.id]) := by
  have hcur : s.currentRequests - 1 < cfg.maxConcurrentRequests := by omega
  exact drainLoop_spec cfg now (s.currentRequests - 1) hcur
    s.requestQueue (s.running.erase id) (id :: s.resolvedIds)

theorem completion_drains_fifo_witness :
    completeRequest defaultConfig 40000 1 ⟨1, [⟨2, 0⟩, ⟨3, 40000⟩], [1], []⟩ =
      (⟨1, [], [3], [2, 1]⟩,
       [DrainEvent.timedOut 2 queueTimeoutMessage, DrainEvent.admitted 3]) :=
  (completion_drains_fifo defaultConfig 40000 1 ⟨1, [⟨2, 0⟩, ⟨3, 40000⟩], [1], []⟩
    (by decide) (by decide)).trans (by rfl)

/-! ## C3 and C4: reachable-state invariants -/

/-- The inductive invariant of the gateway: the counter equals the number
of running units of work, the counter and the queue respect their bounds,
and every tracked id occurs exactly once overall. -/
structure Inv (cfg : Config) (s : GState) : Prop where
  counter_eq : s.currentRequests = s.running.length
  counter_le : s.currentRequests ≤ cfg.maxConcurrentRequests
  queue_le : s.requestQueue.length ≤ cfg.maxQueueSize
  ids_nodup : (allIds s).Nodup

/-- What one run of the drain loop does to the state, bundled: it
preserves the counter/running correspondence, respects the concurrency
bound, never grows the queue, only adds to the settled ids, and overall
permutes the tracked ids (moving expired queue items to `resolvedIds` and
one admitted item to `running`). -/
theorem drainLoop_state (cfg : Config) (now : Nat) :
    ∀ (queue : List QueueItem) (cur : Nat) (running resolved : List Nat),
      (cur = running.length →
        (drainLoop cfg now cur queue running resolved).1.currentRequests =
          (drainLoop cfg now cur queue running resolved).1.running.length) ∧
      (cur ≤ cfg.maxConcurrentRequests →
        (drainLoop cfg now cur queue running resolved).1.currentRequests ≤
          cfg.maxConcurrentRequests) ∧
      (drainLoop cfg now cur queue running resolved).1.requestQueue.length ≤ queue.length ∧
      (∀ x ∈ resolved, x ∈ (drainLoop cfg now cur queue running resolved).1.resolvedIds) ∧
      List.Perm (allIds (drainLoop cfg now cur queue running resolved).1)
        (running ++ queue.map QueueItem.id ++ resolved) := by
  intro queue
  induction queue with
  | nil =>
    intro cur running resolved
    refine ⟨fun h => h, fun h => h, ?_, fun x hx => hx, ?_⟩
    · simp [drainLoop]
    · simp [drainLoop, allIds, queueIds]
  | cons item rest ih =>
    intro cur running resolved
    by_cases hcap : cur < cfg.maxConcurrentRequests
    · by_cases hexp : now - item.timestamp > queueTimeoutMs
      · have heq : (drainLoop cfg now cur (item :: rest) running resolved).1 =
            (drainLoop cfg now cur rest running (item.id :: resolved)).1 := by
          rw [drainLoop, if_pos hcap, if_pos hexp]
        obtain ⟨ih1, ih2, ih3, ih4, ih5⟩ := ih cur running (item.id :: resolved)
        rw [heq]
        refine ⟨ih1, ih2, ?_, ?_, ?_⟩
        · exact ih3.trans (by simp)
        · exact fun x hx => ih4 x (List.mem_cons_of_mem _ hx)
        · have hswap : List.Perm
              (running ++ rest.map QueueItem.id ++ (item.id :: resolved))
              (running ++ (item.id :: rest.map QueueItem.id) ++ resolved) := by
            have h1 :=
              @List.perm_middle Nat item.id (running ++ rest.map QueueItem.id) resolved
            have h2 :=
              @List.perm_middle Nat item.id running (rest.map QueueItem.id ++ resolved)
            simp only [List.append_assoc, List.cons_append] at h1 h2 ⊢
            exact h1.trans h2.symm
          simpa using ih5.trans hswap
      · have heq : (drainLoop cfg now cur (item :: rest) running resolved).1 =
            ⟨cur + 1, rest, item.id :: running, resolved⟩ := by
          rw [drainLoop, if_pos hcap, if_neg hexp]
        rw [heq]
        refine ⟨fun h => by simp [h], fun _ => ?_, by simp, fun x hx => hx, ?_⟩
        · show cur + 1 ≤ cfg.maxConcurrentRequests
          omega
        · have h2 :=
            @List.perm_middle Nat item.id running (rest.map QueueItem.id ++ resolved)
          simp only [allIds, queueIds, List.map_cons, List.append_assoc,
            List.cons_append] at h2 ⊢
          exact h2.symm
    · have heq : (drainLoop cfg now cur (item :: rest) running resolved).1 =
          ⟨cur, item :: rest, running, resolved⟩ := by
        rw [drainLoop, if_neg hcap]
      rw [heq]
      exact ⟨fun h => h, fun h => h, le_refl _, fun x hx => hx, List.Perm.refl _⟩

/-- `Inv` holds initially. -/
theorem inv_init (cfg : Config) : Inv cfg GState.init :=
  ⟨rfl, Nat.zero_le _, Nat.zero_le _, List.nodup_nil⟩

/-- The ids tracked by the state after a completion step, before the
drain, are a permutation of the ids tracked before it. -/
theorem complete_pre_perm {s : GState} {id : Nat} (hrun : id ∈ s.running) :
    List.Perm (s.running.erase id ++ queueIds s ++ (id :: s.resolvedIds)) (allIds s) := by
  have h1 := @List.perm_middle Nat id (s.running.erase id ++ queueIds s) s.resolvedIds
  have h2 : List.Perm s.running (id :: s.running.erase id) := List.perm_cons_erase hrun
  have h3 := (h2.append_right (queueIds s)).append_right s.resolvedIds
  simp only [allIds, List.append_assoc, List.cons_append] at h1 h3 ⊢
  exact h1.trans h3.symm

/-- `Inv` is preserved by every gateway transition. -/
theorem inv_step {cfg : Config} {s s' : GState} (hI : Inv cfg s) (hs : Step cfg s s') :
    Inv cfg s' := by
  cases hs with
  | submit now id s hfresh =>
    by_cases h1 : s.currentRequests < cfg.maxConcurrentRequests
    · rw [(queueRequest_admission_cases cfg now id s).1 h1]
      refine ⟨?_, ?_, hI.queue_le, ?_⟩
      · simp [hI.counter_eq]
      · show s.currentRequests + 1 ≤ cfg.maxConcurrentRequests
        omega
      · exact List.nodup_cons.mpr ⟨hfresh, hI.ids_nodup⟩
    · by_cases h2 : s.requestQueue.length < cfg.maxQueueSize
      · rw [(queueRequest_admission_cases cfg now id s).2.1 h1 h2]
        refine ⟨hI.counter_eq, hI.counter_le, by simp; omega, ?_⟩
        · have hp : List.Perm
              (allIds { s with requestQueue := s.requestQueue ++ [⟨id, now⟩] })
              (id :: allIds s) := by
            have hmid := @List.perm_middle Nat id (s.running ++ queueIds s) s.resolvedIds
            simp only [allIds, queueIds, List.map_append, List.map_cons, List.map_nil,
              List.append_assoc, List.cons_append, List.singleton_append,
              List.nil_append] at hmid ⊢
            exact hmid
          exact hp.symm.nodup (List.nodup_cons.mpr ⟨hfresh, hI.ids_nodup⟩)
      · rw [(queueRequest_admission_cases cfg now id s).2.2 h1 h2]
        exact hI
  | complete now id s hrun =>
    obtain ⟨h1, h2, h3, h4, h5⟩ := drainLoop_state cfg now s.requestQueue
      (s.currentRequests - 1) (s.running.erase id) (id :: s.resolvedIds)
    have hc1 : s.currentRequests - 1 = (s.running.erase id).length := by
      rw [List.length_erase_of_mem hrun, hI.counter_eq]
    refine ⟨h1 hc1, h2 (by have hle := hI.counter_le; omega), h3.trans hI.queue_le, ?_⟩
    have hperm : List.Perm (allIds (completeRequest cfg now id s).1) (allIds s) :=
      h5.trans (complete_pre_perm hrun)
    exact hperm.symm.nodup hI.ids_nodup

/-- `Inv` holds in every reachable state. -/
theorem inv_reachable (cfg : Config) {s : GState} (h : Reachable cfg s) : Inv cfg s := by
  induction h with
  | init => exact inv_init cfg
  | step _ hs ih => exact inv_step ih hs

/-- C3: in every state reachable from the initial state by gateway
operations, `currentRequests ≤ maxConcurrentRequests` and
`requestQueue.length ≤ maxQueueSize` (the lower bounds are inherent to
`Nat`), and in particular the number of concurrently executing units of
work — the length of the ghost `running` list — never exceeds
`maxConcurrentRequests`. -/
theorem reachable_state_bounds (cfg : Config) {s : GState} (h : Reachable cfg s) :
    s.currentRequests ≤ cfg.maxConcurrentRequests ∧
    s.requestQueue.length ≤ cfg.maxQueueSize ∧
    s.running.length ≤ cfg.maxConcurrentRequests := by
  have hI := inv_reachable cfg h
  exact ⟨hI.counter_le, hI.queue_le, hI.counter_eq ▸ hI.counter_le⟩

theorem reachable_state_bounds_witness :
    (⟨1, [], [1], []⟩ : GState).currentRequests ≤ defaultConfig.maxConcurrentRequests ∧
    (⟨1, [], [1], []⟩ : GState).requestQueue.length ≤ defaultConfig.maxQueueSize ∧
    (⟨1, [], [1], []⟩ : GState).running.length ≤ defaultConfig.maxConcurrentRequests :=
  reachable_state_bounds defaultConfig
    (Reachable.step Reachable.init (Step.submit 0 1 GState.init (by decide)))

/-- Along any transition, no tracked id is ever dropped. -/
theorem step_allIds_mono {cfg : Config} {s s' : GState} (hs : Step cfg s s') :
    ∀ x ∈ allIds s, x ∈ allIds s' := by
  cases hs with
  | submit now id s hfresh =>
    intro x hx
    by_cases h1 : s.currentRequests < cfg.maxConcurrentRequests
    · rw [(queueRequest_admission_cases cfg now id s).1 h1]
      exact List.mem_cons_of_mem _ hx
    · by_cases h2 : s.requestQueue.length < cfg.maxQueueSize
      · rw [(queueRequest_admission_cases cfg now id s).2.1 h1 h2]
        simp only [allIds, queueIds, List.map_append, List.mem_append] at hx ⊢
        tauto
      · rw [(queueRequest_admission_cases cfg now id s).2.2 h1 h2]
        exact hx
  | complete now id s hrun =>
    intro x hx
    obtain ⟨-, -, -, -, h5⟩ := drainLoop_state cfg now s.requestQueue
      (s.currentRequests - 1) (s.running.erase id) (id :: s.resolvedIds)
    exact (h5.trans (complete_pre_perm hrun)).mem_iff.mpr hx

/-- Along any transition, an id that has already been settled stays
settled. -/
theorem step_resolved_mono {cfg : Config} {s s' : GState} (hs : Step cfg s s') :
    ∀ x ∈ s.resolvedIds, x ∈ s'.resolvedIds := by
  cases hs with
  | submit now id s hfresh =>
    intro x hx
    by_cases h1 : s.currentRequests < cfg.maxConcurrentRequests
    · rw [(queueRequest_admission_cases cfg now id s).1 h1]
      exact hx
    · by_cases h2 : s.requestQueue.length < cfg.maxQueueSize
      · rw [(queueRequest_admission_cases cfg now id s).2.1 h1 h2]
        exact hx
      · rw [(queueRequest_admission_cases cfg now id s).2.2 h1 h2]
        exact hx
  | complete now id s hrun =>
    intro x hx
    obtain ⟨-, -, -, h4, -⟩ := drainLoop_state cfg now s.requestQueue
      (s.currentRequests - 1) (s.running.erase id) (id :: s.resolvedIds)
    exact h4 x (List.mem_cons_of_mem _ hx)

/-- C4: along any transition out of a reachable state, the tracked ids
are pairwise distinct (so no item is ever settled twice, or is settled
while still running or queued), no admitted id is ever dropped, and a
settled id — in particular one rejected by the queue timeout — stays
settled and is never again running (never executed) nor queued. -/
theorem admitted_resolved_exactly_once (cfg : Config) {s s' : GState}
    (hreach : Reachable cfg s) (hstep : Step cfg s s') :
    (allIds s).Nodup ∧
    (∀ x ∈ allIds s, x ∈ allIds s') ∧
    (∀ x ∈ s.resolvedIds,
      x ∈ s'.resolvedIds ∧ x ∉ s'.running ∧ x ∉ queueIds s') := by
  have hI := inv_reachable cfg hreach
  have hI' : Inv cfg s' := inv_step hI hstep
  refine ⟨hI.ids_nodup, step_allIds_mono hstep, fun x hx => ?_⟩
  have hx' : x ∈ s'.resolvedIds := step_resolved_mono hstep x hx
  have hnd : (s'.running ++ queueIds s' ++ s'.resolvedIds).Nodup := hI'.ids_nodup
  rw [List.nodup_append] at hnd
  refine ⟨hx', fun hxr => ?_, fun hxq => ?_⟩
  · exact hnd.2.2 (List.mem_append_left _ hxr) hx'
  · exact hnd.2.2 (List.mem_append_right _ hxq) hx'

theorem admitted_resolved_exactly_once_witness :
    (allIds ⟨1, [], [1], []⟩).Nodup ∧
    (∀ x ∈ allIds ⟨1, [], [1], []⟩, x ∈ allIds ⟨0, [], [], [1]⟩) ∧
    (∀ x ∈ (⟨1, [], [1], []⟩ : GState).resolvedIds,
      x ∈ (⟨0, [], [], [1]⟩ : GState).resolvedIds ∧
      x ∉ (⟨0, [], [], [1]⟩ : GState).running ∧
      x ∉ queueIds ⟨0, [], [], [1]⟩) :=
  admitted_resolved_exactly_once defaultConfig
    (Reachable.step Reachable.init (Step.submit 0 1 GState.init (by decide)))
    (Step.complete 0 1 ⟨1, [], [1], []⟩ (by decide))

end OllamaService
